import Mathlib

/-!
# Verification of the `bfs` S3 bucket adapter

A shallow embedding of the `bfss3` adapter of the `bfs` bucket-abstraction
library, together with proofs about its namespace prefixing, error
normalization, glob iteration protocol, write-commit protocol and sized
reader.

Go strings are embedded as `List Char`; Go `int64` values as `Int`;
`time.Time` values as `Int` (nanoseconds, zero value = 0); Go errors as the
inductive `GoErr` with `Option GoErr` for a possibly-nil error.  External
collaborators (the S3 client, the filesystem, the `doublestar` matcher) are
either threaded as explicit inputs or modelled where the adapter relies on
their documented behaviour; each such model is marked by a comment.
-/

set_option autoImplicit false

namespace Bfs

/-- A Go string, embedded as a list of characters. -/
abbrev GoStr := List Char

/-- Convert a Lean string literal to an embedded Go string. -/
def gostr (s : String) : GoStr := s.data

/-- Embedded Go error values.  `requestFailure` embeds `awserr.RequestFailure`
(an HTTP-level failure with a status code and an AWS error code),
`awsError` embeds a plain `awserr.Error` (code only), `canceled` embeds
`context.Canceled`, `notFound` embeds `bfs.ErrNotFound`, `eof` embeds
`io.EOF`, `objectNotExist` embeds `storage.ErrObjectNotExist`, and `other`
embeds any remaining error (by message). -/
inductive GoErr where
  | requestFailure (status : Nat) (code : GoStr)
  | awsError (code : GoStr)
  | canceled
  | notFound
  | eof
  | objectNotExist
  | other (msg : GoStr)
  deriving DecidableEq, Repr

/-- Go `strings.TrimPrefix(s, pre)`: drop `pre` from the front of `s` when it is
a prefix, otherwise return `s` unchanged. -/
def trimPfx (s pre : GoStr) : GoStr :=
  if pre.isPrefixOf s then s.drop pre.length else s

/-- Embeds `bucket.stripPrefix` (src/unnamed/part_001 lines 163-170): with an empty
configured prefix return the name unchanged; otherwise trim the prefix, then
trim one leading separator. -/
def stripPfx (pfx name : GoStr) : GoStr :=
  if pfx = [] then name
  else trimPfx (trimPfx name pfx) (gostr "/")

/-! ## Namespace prefixing (`bucket.withPrefix`, `internal.WithinNamespace`) -/

/-- Split a path into its `/`-separated segments (Go `strings.Split(s, "/")`
as used by `path`-style cleaning). -/
def splitSeg (s : GoStr) : List GoStr := s.splitOn '/'

/-- Join segments back with a single `/` between them. -/
def joinSeg (segs : List GoStr) : GoStr := List.intercalate (gostr "/") segs

/-- Rooted path cleaning over segments, with an accumulator stack (head =
most recently kept segment): empty and `.` segments are dropped, `..` pops
the last kept segment and is dropped at the root (a rooted path cannot go
above its root), anything else is kept. -/
def cleanSegsAux (acc : List GoStr) : List GoStr → List GoStr
  | [] => acc.reverse
  | s :: rest =>
    if s = [] then cleanSegsAux acc rest
    else if s = gostr "." then cleanSegsAux acc rest
    else if s = gostr ".." then cleanSegsAux acc.tail rest
    else cleanSegsAux (s :: acc) rest

/-- Modelled from the spec: `internal.WithinNamespace` — the package
`github.com/bsm/bfs/internal` is not under `src/`, only its callers are.
Spec §4.1: "`withPrefix(name)` joins `name` under the prefix while rejecting
or collapsing path-traversal segments so the resolved key can never escape
the prefix subtree".  Modelled as rooted path-cleaning of `name` (so `..`
segments collapse and can never climb above the root) concatenated onto the
already-normalized prefix. -/
def withinNamespace (ns name : GoStr) : GoStr :=
  ns ++ joinSeg (cleanSegsAux [] (splitSeg name))

/-- Embeds `bucket.withPrefix` (src/unnamed/part_001 lines 172-177): with an empty
configured prefix return the name unchanged, otherwise resolve it inside the
prefix namespace. -/
def withPfx (pfx name : GoStr) : GoStr :=
  if pfx = [] then name else withinNamespace pfx name

/-- The backend key resolved by `bucket.Head` for a relative name. -/
def headKey (pfx name : GoStr) : GoStr := withPfx pfx name

/-- The backend key resolved by `bucket.Open`. -/
def openKey (pfx name : GoStr) : GoStr := withPfx pfx name

/-- The backend key resolved by `bucket.Remove`. -/
def removeKey (pfx name : GoStr) : GoStr := withPfx pfx name

/-- The backend key uploaded to by `writer.Commit` (the key of `Create`'s
destination object). -/
def commitKey (pfx name : GoStr) : GoStr := withPfx pfx name

/-- The source key resolved by `bucket.Copy` (the key component of its
`CopySource`, which additionally carries the bucket name). -/
def copySrcKey (pfx name : GoStr) : GoStr := withPfx pfx name

/-- The destination key resolved by `bucket.Copy`. -/
def copyDstKey (pfx name : GoStr) : GoStr := withPfx pfx name

/-- The listing prefix used by the iterator's page fetch
(`iterator.fetchNextPage` passes `config.Prefix` itself). -/
def globListKey (pfx : GoStr) : GoStr := pfx

/-- A path segment that is neither empty nor a traversal segment. -/
def cleanSeg (s : GoStr) : Prop := s ≠ [] ∧ s ≠ gostr "." ∧ s ≠ gostr ".."

/-- Holds when `key` lies inside the subtree of `pfx`: it is `pfx` followed by a
`/`-joined list of clean (non-traversal) segments. -/
def inSubtree (pfx key : GoStr) : Prop :=
  ∃ segs : List GoStr, key = pfx ++ joinSeg segs ∧ ∀ s ∈ segs, cleanSeg s

/-! ## Error normalization (`normError`, src/unnamed/part_001 lines 333-353) -/

/-- Embeds `normError` on a non-nil error: an `awserr.RequestFailure` with HTTP
status 404 becomes `bfs.ErrNotFound`; a plain `awserr.Error` with code
`s3.ErrCodeNoSuchKey` becomes `bfs.ErrNotFound` and with code
`request.CanceledErrorCode` becomes `context.Canceled`; every other error is
passed through unchanged. -/
def normErrVal : GoErr → GoErr
  | .requestFailure status code =>
    if status = 404 then .notFound else .requestFailure status code
  | .awsError code =>
    if code = gostr "NoSuchKey" then .notFound
    else if code = gostr "RequestCanceled" then .canceled
    else .awsError code
  | e => e

/-- Embeds `normError` (src/unnamed/part_001 lines 333-353): `nil` stays `nil`,
anything else goes through `normErrVal`. -/
def normError : Option GoErr → Option GoErr
  | none => none
  | some e => some (normErrVal e)

/-! ## Bucket operation boundaries (src/unnamed/part_001 lines 193-264)

Each operation is embedded from the backend call outward: the result of the
backend call (the S3 client response, an external collaborator) is an
explicit input, and the definition captures what the adapter does with it. -/

/-- Object metadata as reported by `bucket.Head` (`bfs.MetaInfo`, with the
modification time as an integer and content type/metadata omitted as they
play no role in any claim). -/
structure MetaInfo where
  name : GoStr
  size : Int
  modTime : Int
  deriving DecidableEq, Repr

/-- The S3 `HeadObject`/`GetObject` response fields the adapter reads. -/
structure S3ObjInfo where
  contentLength : Int
  lastModified : Int
  deriving DecidableEq, Repr

/-- Embeds `bucket.Head` (lines 193-210): on a backend error return the normalized
error, otherwise build the `MetaInfo` from the response. -/
def bucketHead (name : GoStr) (raw : Except GoErr S3ObjInfo) : Except GoErr MetaInfo :=
  match raw with
  | .error e => .error (normErrVal e)
  | .ok r => .ok { name := name, size := r.contentLength, modTime := r.lastModified }

/-- Embeds `bucket.Open` (lines 212-225): on a backend error return the normalized
error, otherwise return a sized response (its declared content length). -/
def bucketOpen (raw : Except GoErr S3ObjInfo) : Except GoErr Int :=
  match raw with
  | .error e => .error (normErrVal e)
  | .ok r => .ok r.contentLength

/-- Embeds `bucket.Remove` (lines 243-250): the backend delete error, normalized. -/
def bucketRemoveErr (raw : Option GoErr) : Option GoErr := normError raw

/-- Embeds `bucket.Copy` (lines 252-264): the backend copy error is returned as-is
(`return err`) — `normError` is not applied on this path. -/
def bucketCopyErr (raw : Option GoErr) : Option GoErr := raw

/-! ## Remove idempotency: the S3 backend store

`DeleteObjectWithContext` is modelled over an explicit store of keys.  Model
of external S3 semantics: S3's `DeleteObject` succeeds (no error) whether or
not the key exists — deleting an absent key is not a failure. -/

/-- The S3 `DeleteObject` call over a store of existing keys: removes the
key and never reports an error (S3 delete semantics). -/
def s3DeleteObject (store : List GoStr) (key : GoStr) : List GoStr × Option GoErr :=
  (store.filter (fun k => k ≠ key), none)

/-- Embeds `bucket.Remove` over the modelled store: resolve the key under the
prefix, delete it on the backend, normalize the error. -/
def bucketRemove (pfx : GoStr) (store : List GoStr) (name : GoStr) :
    List GoStr × Option GoErr :=
  let r := s3DeleteObject store (withPfx pfx name)
  (r.1, normError r.2)

/-- Embeds `gsBucket.Remove` (src/bfsfs/bucket_test.go lines 221-229, the `bfsgs`
adapter): a `storage.ErrObjectNotExist` from the backend delete is turned
into success, anything else is returned unchanged. -/
def gsRemoveErr (raw : Option GoErr) : Option GoErr :=
  if raw = some .objectNotExist then none else raw

/-! ## Writer commit/discard protocol (src/unnamed/part_001 lines 271-329)

The writer's `sync.Once` is embedded as the `finalized` flag; the results of
the filesystem calls its body makes (`File.Close`, `os.Open`) and of the
backend upload are explicit inputs; the observable side effects (staging
file deletions via the deferred `os.Remove`, backend uploads) are counted in
`IOEffects`. -/

/-- Writer state: whether the one-time finalize gate (`closeOnce`) has
fired. -/
structure WriterSt where
  finalized : Bool
  deriving DecidableEq, Repr

/-- Counts of the writer's observable side effects: backend uploads
performed and staging-file deletions performed. -/
structure IOEffects where
  uploads : Nat
  tmpRemovals : Nat
  deriving DecidableEq, Repr

/-- Embeds `writer.Commit` (lines 296-329).  `closeErr`, `openErr` and `uploadErr`
are the results of the tempfile close, the tempfile re-open and the backend
upload.  If the gate has already fired, the body is skipped and the initial
`err := context.Canceled` is returned (through `normError`).  Otherwise the
gate fires, the deferred `os.Remove` of the staging file runs on every exit
path, and the upload happens only if close and re-open succeed.  The
returned error always goes through `normError` (line 328). -/
def writerCommit (w : WriterSt) (fx : IOEffects)
    (closeErr openErr uploadErr : Option GoErr) :
    Option GoErr × WriterSt × IOEffects :=
  if w.finalized then (normError (some .canceled), w, fx)
  else
    let w' : WriterSt := { finalized := true }
    match closeErr with
    | some e => (normError (some e), w', { fx with tmpRemovals := fx.tmpRemovals + 1 })
    | none =>
      match openErr with
      | some e => (normError (some e), w', { fx with tmpRemovals := fx.tmpRemovals + 1 })
      | none =>
        (normError uploadErr, w',
          { uploads := fx.uploads + 1, tmpRemovals := fx.tmpRemovals + 1 })

/-- Embeds `writer.Discard` (lines 282-294): if the gate has already fired, return
the initial `err := context.Canceled` unchanged; otherwise fire the gate,
delete the staging file and return the tempfile close result. -/
def writerDiscard (w : WriterSt) (fx : IOEffects) (closeErr : Option GoErr) :
    Option GoErr × WriterSt × IOEffects :=
  if w.finalized then (some .canceled, w, fx)
  else (closeErr, { finalized := true }, { fx with tmpRemovals := fx.tmpRemovals + 1 })

/-! ## Sized reader (`response.Read`, src/unnamed/part_001 lines 362-381)

The wrapped transport (`resp.Body`, an `io.ReadCloser`) is an explicit
input: a state type `σ` with a step function `read` taking the state and the
buffer length and returning the bytes delivered, the error and the new
state.  The `io.Reader` contract (never deliver more than the buffer
length) is the `ReaderContract` hypothesis. -/

/-- The `io.Reader` contract for a transport step function: a read into a
buffer of length `c` delivers at most `c` bytes. -/
def ReaderContract {σ : Type} (read : σ → Nat → Nat × Option GoErr × σ) : Prop :=
  ∀ (s : σ) (c : Nat), (read s c).1 ≤ c

/-- Embeds `response.Read` (lines 367-381): with no declared bytes left, report a
clean EOF without touching the transport; otherwise clip the buffer to the
declared remaining length, read from the transport, suppress an EOF that
arrives exactly with the last declared byte, and decrement the remaining
length by the bytes delivered.  Returns (bytes delivered, error, remaining
declared length, transport state). -/
def respRead {σ : Type} (read : σ → Nat → Nat × Option GoErr × σ)
    (cl : Int) (cap : Nat) (s : σ) : Nat × Option GoErr × Int × σ :=
  if cl ≤ 0 then (0, some .eof, cl, s)
  else
    let cap' := if (cap : Int) > cl then cl.toNat else cap
    let r := read s cap'
    let e := if r.2.1 = some GoErr.eof ∧ 0 < r.1 ∧ (r.1 : Int) = cl then none else r.2.1
    (r.1, e, cl - (r.1 : Int), r.2.2)

/-- Run a sequence of `Read` calls with the given buffer lengths, returning
the total number of bytes delivered, the final remaining declared length and
the final transport state. -/
def runReads {σ : Type} (read : σ → Nat → Nat × Option GoErr × σ) :
    List Nat → Int → σ → Nat × Int × σ
  | [], cl, s => (0, cl, s)
  | c :: cs, cl, s =>
    let r := respRead read cl c s
    let rest := runReads read cs r.2.2.1 r.2.2.2
    (r.1 + rest.1, rest.2.1, rest.2.2)

/-- A concrete transport over a list of bytes that reports EOF together with
the final bytes delivered (used to witness the reader theorems). -/
def listRead (s : List Nat) (cap : Nat) : Nat × Option GoErr × List Nat :=
  if s.length ≤ cap then (s.length, some .eof, [])
  else (cap, none, s.drop cap)

/-- The behaviour claimed of `response.Read` over a transport: (i) the total
delivered by any sequence of `Read` calls never exceeds the declared content
length; (ii) with no declared bytes remaining (including a non-positive
declared length) `Read` returns `(0, EOF)` and does not touch the transport,
however many bytes the transport could still deliver; (iii) a `Read` that
exactly exhausts the declared length and meets the transport's EOF reports
the bytes with no error. -/
def RespReadSpec {σ : Type} (read : σ → Nat → Nat × Option GoErr × σ) : Prop :=
  (∀ (caps : List Nat) (cl : Int) (s : σ),
    ((runReads read caps cl s).1 : Int) ≤ max cl 0) ∧
  (∀ (cap : Nat) (cl : Int) (s : σ), cl ≤ 0 →
    respRead read cl cap s = (0, some .eof, cl, s)) ∧
  (∀ (cap : Nat) (cl : Int) (s s' : σ), 0 < cl →
    read s (if (cap : Int) > cl then cl.toNat else cap) = (cl.toNat, some .eof, s') →
    respRead read cl cap s = (cl.toNat, none, 0, s'))

/-! ## Glob iterator protocol (src/unnamed/part_001 lines 179-191, 385-485)

The `doublestar` matcher is an external collaborator and is threaded as an
explicit function input; the paginated S3 listing backend is embedded as a
script of fetch results consumed one per `ListObjectsV2` call, so "performs
no page fetch" is visible as the script being returned unchanged.  When the
script is exhausted the backend is modelled as answering with an empty final
page. -/

/-- A `doublestar.Match`-style matcher: pattern, name → matched, or a
bad-pattern error. -/
abbrev Matcher := GoStr → GoStr → Except GoErr Bool

/-- A raw object of an S3 listing page (key not yet stripped). -/
structure RawObj where
  key : GoStr
  size : Int
  modTime : Int
  deriving DecidableEq, Repr

/-- A buffered, matched object of the iterator's current page. -/
structure PageObj where
  key : GoStr
  size : Int
  modTime : Int
  deriving DecidableEq, Repr

instance : Inhabited PageObj := ⟨⟨[], 0, 0⟩⟩

/-- One scripted backend answer to a `ListObjectsV2` call: either a failure
or a page of objects together with whether a continuation token follows. -/
inductive FetchRes where
  | fetchErr (e : GoErr)
  | fetchPage (objs : List RawObj) (more : Bool)
  deriving DecidableEq, Repr

/-- The backend listing, as the script of its successive answers. -/
abbrev Backend := List FetchRes

/-- The S3 iterator state (src/unnamed/part_001 lines 385-395).  The
continuation token is carried by the position in the backend script. -/
structure Iter where
  pattern : GoStr
  err : Option GoErr
  last : Bool
  pos : Int
  page : List PageObj
  deriving DecidableEq, Repr

/-- The iterator as `bucket.Glob` constructs it (Go zero values for the
remaining fields: no error, not last, position 0, empty page). -/
def initIter (pat : GoStr) : Iter :=
  { pattern := pat, err := none, last := false, pos := 0, page := [] }

/-- Embeds `bucket.Glob` (lines 179-191): eagerly validate the pattern by matching
it against the empty name; on a matcher error return it without touching the
backend, otherwise return the fresh iterator, also without touching the
backend. -/
def glob (m : Matcher) (pat : GoStr) (b : Backend) : Except GoErr Iter × Backend :=
  match m pat [] with
  | .error e => (.error e, b)
  | .ok _ => (.ok (initIter pat), b)

/-- The match loop of `iterator.fetchNextPage` (lines 468-483): strip the
prefix from each raw key, match it against the pattern, buffer matches in
order; on a matcher error stop, keeping the matches buffered so far. -/
def matchObjs (m : Matcher) (pat pfx : GoStr) :
    List RawObj → List PageObj → List PageObj × Option GoErr
  | [], acc => (acc.reverse, none)
  | o :: os, acc =>
    let name := stripPfx pfx o.key
    match m pat name with
    | .error e => (acc.reverse, some e)
    | .ok true =>
      matchObjs m pat pfx os ({ key := name, size := o.size, modTime := o.modTime } :: acc)
    | .ok false => matchObjs m pat pfx os acc

/-- Embeds `iterator.fetchNextPage` (lines 452-485) on one scripted backend answer:
reset the page and set the position to -1; on a listing error return it (the
`last` flag untouched); on a page, record whether it is the last one, then
run the match loop. -/
def fetchOne (m : Matcher) (pfx : GoStr) (it : Iter) (r : FetchRes) :
    Option GoErr × Iter :=
  let it0 : Iter := { it with page := [], pos := -1 }
  match r with
  | .fetchErr e => (some e, it0)
  | .fetchPage objs more =>
    let it1 : Iter := { it0 with last := more = false }
    let mr := matchObjs m it.pattern pfx objs []
    (mr.2, { it1 with page := mr.1 })

/-- The tail of `iterator.Next` after the position increment (lines
435-447): yield if the cursor is on a buffered element; stop if the backend
said no more pages; otherwise fetch the next page, record a fetch error, and
on success re-enter `Next` (which increments the position again).  An
exhausted script is answered with an empty final page. -/
def nextAux (m : Matcher) (pfx : GoStr) (it : Iter) (b : Backend) :
    Bool × Iter × Backend :=
  if it.pos < (it.page.length : Int) then (true, it, b)
  else if it.last then (false, it, b)
  else
    match b with
    | [] => (false, { it with page := [], pos := 0, last := true }, [])
    | r :: rest =>
      let fr := fetchOne m pfx it r
      match fr.1 with
      | some e => (false, { fr.2 with err := some e }, rest)
      | none => nextAux m pfx { fr.2 with pos := fr.2.pos + 1 } rest

/-- Embeds `iterator.Next` (lines 430-448): a recorded error is terminal; otherwise
increment the position and proceed. -/
def next (m : Matcher) (pfx : GoStr) (it : Iter) (b : Backend) :
    Bool × Iter × Backend :=
  if it.err.isSome then (false, it, b)
  else nextAux m pfx { it with pos := it.pos + 1 } b

/-- Iterate `next` a given number of times, discarding the yielded flags. -/
def nextN (m : Matcher) (pfx : GoStr) : Nat → Iter → Backend → Iter × Backend
  | 0, it, b => (it, b)
  | n + 1, it, b =>
    let r := next m pfx it b
    nextN m pfx n r.2.1 r.2.2

/-- Embeds `iterator.Close` (lines 403-407): mark the last page reached, move the
position past the page, report success. -/
def closeIter (it : Iter) : Iter × Option GoErr :=
  ({ it with last := true, pos := (it.page.length : Int) }, none)

/-- Embeds `iterator.Error` (line 450). -/
def iterError (it : Iter) : Option GoErr := it.err

/-- Embeds `iterator.Name` (lines 409-414): the buffered key at the cursor if
`pos < len(page)`, else the empty string.  The Go indexing `i.page[i.pos]`
panics when the position is negative; the panic is embedded as `none`, a
normal return as `some`. -/
def iterName (it : Iter) : Option GoStr :=
  if it.pos < (it.page.length : Int) then
    if h : 0 ≤ it.pos ∧ it.pos.toNat < it.page.length then
      some (it.page.get ⟨it.pos.toNat, h.2⟩).key
    else none
  else some []

/-- Embeds `iterator.Size` (lines 416-421), with the same panic embedding. -/
def iterSize (it : Iter) : Option Int :=
  if it.pos < (it.page.length : Int) then
    if h : 0 ≤ it.pos ∧ it.pos.toNat < it.page.length then
      some (it.page.get ⟨it.pos.toNat, h.2⟩).size
    else none
  else some 0

/-- Embeds `iterator.ModTime` (lines 423-428), with the same panic embedding; the
zero `time.Time` is embedded as 0. -/
def iterModTime (it : Iter) : Option Int :=
  if it.pos < (it.page.length : Int) then
    if h : 0 ≤ it.pos ∧ it.pos.toNat < it.page.length then
      some (it.page.get ⟨it.pos.toNat, h.2⟩).modTime
    else none
  else some 0

/-- An iterator is exhausted when the backend said no more pages and the
cursor is at or past the end of the buffered page. -/
def exhausted (it : Iter) : Prop :=
  it.last = true ∧ (it.page.length : Int) ≤ it.pos

/-- Bracket balance check over a pattern (a stand-in for the syntax check
the external `doublestar` matcher performs; used only to witness the glob
theorems on concrete patterns). -/
def bracketDepthOk : GoStr → Nat → Bool
  | [], 0 => true
  | [], _ + 1 => false
  | c :: rest, d =>
    if c = '[' then bracketDepthOk rest (d + 1)
    else if c = ']' then
      match d with
      | 0 => false
      | d' + 1 => bracketDepthOk rest d'
    else bracketDepthOk rest d

/-- A concrete sample matcher (a stand-in for the external `doublestar`
matcher, used only to witness the glob theorems): rejects patterns with
unbalanced character-class brackets, otherwise matches by equality. -/
def sampleMatch (pat name : GoStr) : Except GoErr Bool :=
  if bracketDepthOk pat 0 then .ok (pat == name)
  else .error (.other (gostr "syntax error in pattern"))

theorem cleanSegsAux_good (segs : List GoStr) :
    ∀ acc : List GoStr, (∀ s ∈ acc, cleanSeg s) →
      ∀ s ∈ cleanSegsAux acc segs, cleanSeg s := by
  induction segs with
  | nil =>
    intro acc hacc s hs
    rw [cleanSegsAux, List.mem_reverse] at hs
    exact hacc s hs
  | cons seg rest ih =>
    intro acc hacc s hs
    rw [cleanSegsAux] at hs
    by_cases h1 : seg = []
    · rw [if_pos h1] at hs; exact ih acc hacc s hs
    · rw [if_neg h1] at hs
      by_cases h2 : seg = gostr "."
      · rw [if_pos h2] at hs; exact ih acc hacc s hs
      · rw [if_neg h2] at hs
        by_cases h3 : seg = gostr ".."
        · rw [if_pos h3] at hs
          exact ih acc.tail (fun t ht => hacc t (List.mem_of_mem_tail ht)) s hs
        · rw [if_neg h3] at hs
          refine ih (seg :: acc) ?_ s hs
          intro t ht
          rcases List.mem_cons.mp ht with h | h
          · subst h; exact ⟨h1, h2, h3⟩
          · exact hacc t h

theorem withinNamespace_inSubtree (ns name : GoStr) :
    inSubtree ns (withinNamespace ns name) :=
  ⟨cleanSegsAux [] (splitSeg name), rfl,
    cleanSegsAux_good (splitSeg name) [] (by intro s hs; cases hs)⟩

theorem trimPfx_append (pre rest : GoStr) : trimPfx (pre ++ rest) pre = rest := by
  unfold trimPfx
  rw [if_pos, List.drop_left]
  rw [ List.isPrefixOf_iff_prefix]
  exact ⟨rest, rfl⟩

theorem trimPfx_not_pfx (s pre : GoStr) (h : ¬ pre <+: s) : trimPfx s pre = s := by
  unfold trimPfx
  rw [if_neg]
  rw [ List.isPrefixOf_iff_prefix]
  exact h

/-- C8 counterexample: with prefix `"x/"`, the backend key `"/a"` does not
start with the prefix, yet `stripPrefix` does not return it unchanged — the
second `TrimPrefix(name, "/")` strips its leading separator, giving `"a"`. -/
theorem stripPfx_changed_cex :
    (gostr "x/").isPrefixOf (gostr "/a") = false ∧
    stripPfx (gostr "x/") (gostr "/a") ≠ gostr "/a" ∧
    stripPfx (gostr "x/") (gostr "/a") = gostr "a" := by
  refine ⟨by decide, by decide, by decide⟩

/-- C8 (amended): for a non-empty prefix, `stripPrefix` removes the prefix
and then one following separator from a key that starts with the prefix; a
key that does not start with the prefix still has one leading separator
removed when present, and is returned unchanged only when it starts with
neither the prefix nor a separator. -/
theorem stripPfx_amended (pfx : GoStr) (h : pfx ≠ []) :
    (∀ rest, stripPfx pfx (pfx ++ rest) = trimPfx rest (gostr "/")) ∧
    (∀ t, trimPfx ('/' :: t) (gostr "/") = t) ∧
    (∀ k, ¬ pfx <+: k → stripPfx pfx k = trimPfx k (gostr "/")) ∧
    (∀ k, ¬ pfx <+: k → ¬ gostr "/" <+: k → stripPfx pfx k = k) := by
  refine ⟨?_, ?_, ?_, ?_⟩
  · intro rest
    unfold stripPfx
    rw [if_neg h, trimPfx_append]
  · intro t
    have hs : gostr "/" = ['/'] := rfl
    rw [hs]
    exact trimPfx_append ['/'] t
  · intro k hk
    unfold stripPfx
    rw [if_neg h, trimPfx_not_pfx k pfx hk]
  · intro k hk hsl
    unfold stripPfx
    rw [if_neg h, trimPfx_not_pfx k pfx hk, trimPfx_not_pfx k _ hsl]

/-- C8 witness: the amended statement at the concrete prefix `"x/"`. -/
theorem stripPfx_amended_witness :
    (gostr "x/" ≠ []) ∧
    ((∀ rest, stripPfx (gostr "x/") (gostr "x/" ++ rest) = trimPfx rest (gostr "/")) ∧
     (∀ t, trimPfx ('/' :: t) (gostr "/") = t) ∧
     (∀ k, ¬ gostr "x/" <+: k → stripPfx (gostr "x/") k = trimPfx k (gostr "/")) ∧
     (∀ k, ¬ gostr "x/" <+: k → ¬ gostr "/" <+: k → stripPfx (gostr "x/") k = k)) :=
  ⟨by decide, stripPfx_amended (gostr "x/") (by decide)⟩

/-- C2: with a non-empty configured prefix, every backend key resolved by
the bucket operations — Head, Open, Remove, the Commit upload of Create's
writer, both sides of Copy, and the Glob listing prefix — lies inside the
prefix subtree: it is the prefix followed by `/`-joined segments none of
which is empty, `.` or `..`, so path-traversal segments in the relative
name can never escape the prefix. -/
theorem prefix_isolation (pfx name : GoStr) (h : pfx ≠ []) :
    inSubtree pfx (headKey pfx name) ∧ inSubtree pfx (openKey pfx name) ∧
    inSubtree pfx (removeKey pfx name) ∧ inSubtree pfx (commitKey pfx name) ∧
    inSubtree pfx (copySrcKey pfx name) ∧ inSubtree pfx (copyDstKey pfx name) ∧
    inSubtree pfx (globListKey pfx) := by
  have hw : inSubtree pfx (withPfx pfx name) := by
    unfold withPfx
    rw [if_neg h]
    exact withinNamespace_inSubtree pfx name
  refine ⟨hw, hw, hw, hw, hw, hw, ?_⟩
  refine ⟨[], ?_, by intro s hs; cases hs⟩
  show pfx = pfx ++ joinSeg []
  simp [joinSeg, List.intercalate]

/-- C2 witness: the isolation statement at prefix `"x/"` and the traversal
name `"../a"`. -/
theorem prefix_isolation_witness :
    (gostr "x/" ≠ []) ∧
    (inSubtree (gostr "x/") (headKey (gostr "x/") (gostr "../a")) ∧
     inSubtree (gostr "x/") (openKey (gostr "x/") (gostr "../a")) ∧
     inSubtree (gostr "x/") (removeKey (gostr "x/") (gostr "../a")) ∧
     inSubtree (gostr "x/") (commitKey (gostr "x/") (gostr "../a")) ∧
     inSubtree (gostr "x/") (copySrcKey (gostr "x/") (gostr "../a")) ∧
     inSubtree (gostr "x/") (copyDstKey (gostr "x/") (gostr "../a")) ∧
     inSubtree (gostr "x/") (globListKey (gostr "x/"))) :=
  ⟨by decide, prefix_isolation (gostr "x/") (gostr "../a") (by decide)⟩

/-- C7: `Remove` is idempotent — the S3 delete of the resolved key succeeds
whether or not the key exists, so `Remove` returns no error on any store, a
second `Remove` of the same name still returns no error, and the resolved
key is absent from the store afterwards; the `bfsgs` adapter obtains the
same semantics explicitly, mapping the backend's object-not-exist failure to
success. -/
theorem remove_idempotent (pfx : GoStr) (store : List GoStr) (name : GoStr) :
    (bucketRemove pfx store name).2 = none ∧
    (bucketRemove pfx (bucketRemove pfx store name).1 name).2 = none ∧
    (∀ k ∈ (bucketRemove pfx store name).1, k ≠ withPfx pfx name) ∧
    gsRemoveErr (some .objectNotExist) = none := by
  refine ⟨rfl, rfl, ?_, rfl⟩
  intro k hk
  have := List.of_mem_filter (p := fun k => k ≠ withPfx pfx name) hk
  simpa using this

theorem writerCommit_finalizes (fx : IOEffects) (c o u : Option GoErr) :
    (writerCommit ⟨false⟩ fx c o u).2.1.finalized = true := by
  rcases c with _ | e₁ <;> rcases o with _ | e₂ <;>
    simp [writerCommit]

theorem writerCommit_on_finalized (w : WriterSt) (fx : IOEffects)
    (c o u : Option GoErr) (h : w.finalized = true) :
    writerCommit w fx c o u = (some .canceled, w, fx) := by
  unfold writerCommit
  rw [if_pos h]
  rfl

/-- C1: the finalize logic of `Commit` and `Discard` runs exactly once.
Starting from a fresh writer (gate not fired), after a first `Commit` — with
any outcomes of its tempfile close, re-open and upload — or a first
`Discard`, a second `Commit` returns the non-nil `context.Canceled` error,
leaves the writer state unchanged, and performs no additional backend upload
and no additional staging-file deletion (the effect counters are returned
untouched). -/
theorem writer_finalize_once (fx : IOEffects) (c₁ o₁ u₁ c₂ o₂ u₂ : Option GoErr) :
    (writerCommit (writerCommit ⟨false⟩ fx c₁ o₁ u₁).2.1
        (writerCommit ⟨false⟩ fx c₁ o₁ u₁).2.2 c₂ o₂ u₂ =
      (some .canceled, (writerCommit ⟨false⟩ fx c₁ o₁ u₁).2.1,
        (writerCommit ⟨false⟩ fx c₁ o₁ u₁).2.2)) ∧
    (writerCommit (writerDiscard ⟨false⟩ fx c₁).2.1
        (writerDiscard ⟨false⟩ fx c₁).2.2 c₂ o₂ u₂ =
      (some .canceled, (writerDiscard ⟨false⟩ fx c₁).2.1,
        (writerDiscard ⟨false⟩ fx c₁).2.2)) ∧
    some GoErr.canceled ≠ (none : Option GoErr) := by
  refine ⟨?_, ?_, by simp⟩
  · exact writerCommit_on_finalized _ _ _ _ _ (writerCommit_finalizes fx c₁ o₁ u₁)
  · refine writerCommit_on_finalized _ _ _ _ _ ?_
    simp [writerDiscard]

/-- C5: a recorded iterator error is sticky.  With the error field set,
`Next` returns false and leaves both the iterator and the backend script
untouched (so no page is fetched and nothing is retried), any number of
further `Next` calls changes nothing, and `Error` reports the recorded
error. -/
theorem iterator_error_sticky (m : Matcher) (pfx : GoStr) (it : Iter)
    (b : Backend) (e : GoErr) (n : Nat) :
    next m pfx { it with err := some e } b = (false, { it with err := some e }, b) ∧
    nextN m pfx n { it with err := some e } b = ({ it with err := some e }, b) ∧
    iterError { it with err := some e } = some e := by
  refine ⟨by simp [next], ?_, rfl⟩
  induction n with
  | zero => rfl
  | succ k ih => simpa [nextN, next] using ih

theorem exhausted_next (m : Matcher) (pfx : GoStr) (it : Iter) (b : Backend)
    (h : exhausted it) :
    (next m pfx it b).1 = false ∧ (next m pfx it b).2.2 = b ∧
    exhausted (next m pfx it b).2.1 := by
  obtain ⟨hlast, hpos⟩ := h
  unfold next
  by_cases he : it.err.isSome
  · rw [if_pos he]
    exact ⟨rfl, rfl, hlast, hpos⟩
  · rw [if_neg he]
    rw [nextAux.eq_def]
    rw [if_neg (by simp; omega), if_pos (by simpa using hlast)]
    refine ⟨rfl, rfl, by simpa using hlast, by simp; omega⟩

theorem exhausted_nextN (m : Matcher) (pfx : GoStr) (n : Nat) :
    ∀ (it : Iter) (b : Backend), exhausted it →
      exhausted (nextN m pfx n it b).1 ∧ (nextN m pfx n it b).2 = b := by
  induction n with
  | zero => exact fun it b h => ⟨h, rfl⟩
  | succ k ih =>
    intro it b h
    obtain ⟨h1, h2, h3⟩ := exhausted_next m pfx it b h
    rw [nextN]
    obtain ⟨ih1, ih2⟩ := ih (next m pfx it b).2.1 (next m pfx it b).2.2 h3
    exact ⟨ih1, by rw [ih2, h2]⟩

/-- C9: `Close` is idempotent and exhausts the iterator.  `Close` reports
success, a second `Close` returns exactly the same result, and after a
`Close` every later `Next` call returns false while leaving the backend
script untouched — no further page is fetched. -/
theorem iterator_close_idempotent (m : Matcher) (pfx : GoStr) (it : Iter)
    (b : Backend) (n : Nat) :
    (closeIter it).2 = none ∧
    closeIter (closeIter it).1 = closeIter it ∧
    (nextN m pfx n (closeIter it).1 b).2 = b ∧
    (next m pfx (nextN m pfx n (closeIter it).1 b).1
        (nextN m pfx n (closeIter it).1 b).2).1 = false := by
  have hex : exhausted (closeIter it).1 := ⟨rfl, le_refl _⟩
  obtain ⟨hN1, hN2⟩ := exhausted_nextN m pfx n (closeIter it).1 b hex
  exact ⟨rfl, rfl, hN2, (exhausted_next m pfx _ _ hN1).1⟩

/-- C10 counterexample: after the very first `Next` fails on a backend
listing error, `Next` has returned false (the iterator is exhausted with the
error recorded, so the cursor is on no buffered element), yet `Name` does
not return the empty string — the position is -1, the guard `pos <
len(page)` passes, and the access `i.page[i.pos]` indexes out of range
(embedded as `none`). -/
theorem iterator_accessor_panic_cex :
    (next sampleMatch [] (initIter []) [.fetchErr (.other (gostr "boom"))]).1 = false ∧
    (iterError (next sampleMatch [] (initIter [])
        [.fetchErr (.other (gostr "boom"))]).2.1).isSome = true ∧
    iterName (next sampleMatch [] (initIter [])
        [.fetchErr (.other (gostr "boom"))]).2.1 = none ∧
    iterName (next sampleMatch [] (initIter [])
        [.fetchErr (.other (gostr "boom"))]).2.1 ≠ some (gostr "") := by
  refine ⟨by decide, by decide, by decide, by decide⟩

/-- C10 (amended): whenever the cursor position is at or past the end of the
buffered page — which holds in the fresh iterator returned by `Glob`, after
normal exhaustion, and after `Close`, though not after a failed page fetch —
the accessors return zero values without faulting: `Name` the empty string,
`Size` 0, `ModTime` the zero time. -/
theorem iterator_accessors_zero (it : Iter) (h : (it.page.length : Int) ≤ it.pos) :
    iterName it = some [] ∧ iterSize it = some 0 ∧ iterModTime it = some 0 ∧
    (∀ pat, iterName (initIter pat) = some [] ∧ iterSize (initIter pat) = some 0 ∧
      iterModTime (initIter pat) = some 0) ∧
    (∀ it' : Iter, iterName (closeIter it').1 = some [] ∧
      iterSize (closeIter it').1 = some 0 ∧ iterModTime (closeIter it').1 = some 0) := by
  have hzero : ∀ j : Iter, (j.page.length : Int) ≤ j.pos →
      iterName j = some [] ∧ iterSize j = some 0 ∧ iterModTime j = some 0 := by
    intro j hj
    unfold iterName iterSize iterModTime
    rw [if_neg (by omega), if_neg (by omega), if_neg (by omega)]
    exact ⟨rfl, rfl, rfl⟩
  refine ⟨(hzero it h).1, (hzero it h).2.1, (hzero it h).2.2, ?_, ?_⟩
  · intro pat
    exact hzero (initIter pat) (by simp [initIter])
  · intro it'
    exact hzero (closeIter it').1 (by simp [closeIter])

/-- C10 witness: the fresh iterator of an empty pattern satisfies the cursor
bound and the zero-value accessor statement. -/
theorem iterator_accessors_zero_witness :
    (((initIter []).page.length : Int) ≤ (initIter []).pos) ∧
    (iterName (initIter []) = some [] ∧ iterSize (initIter []) = some 0 ∧
     iterModTime (initIter []) = some 0 ∧
     (∀ pat, iterName (initIter pat) = some [] ∧ iterSize (initIter pat) = some 0 ∧
       iterModTime (initIter pat) = some 0) ∧
     (∀ it' : Iter, iterName (closeIter it').1 = some [] ∧
       iterSize (closeIter it').1 = some 0 ∧ iterModTime (closeIter it').1 = some 0)) :=
  ⟨by decide, iterator_accessors_zero (initIter []) (by decide)⟩

/-- C3: `Glob` validates the pattern eagerly against the empty name.  When
the matcher rejects the pattern, `Glob` returns that error at once, with the
backend script untouched (no listing call) and no iterator constructed; when
the matcher accepts it, `Glob` returns the fresh error-free iterator, still
without touching the backend. -/
theorem glob_eager_validation (m : Matcher) (pat : GoStr) (b : Backend) :
    (∀ e, m pat [] = .error e → glob m pat b = (.error e, b)) ∧
    (∀ v, m pat [] = .ok v →
      glob m pat b = (.ok (initIter pat), b) ∧ (initIter pat).err = none) := by
  constructor
  · intro e he
    unfold glob
    rw [he]
  · intro v hv
    unfold glob
    rw [hv]
    exact ⟨rfl, rfl⟩

/-- C3 witness: the sample matcher rejects the unbalanced-bracket pattern
`"[a"` and `Glob` fails eagerly on it; it accepts `"a"` and `Glob` returns
the fresh iterator. -/
theorem glob_eager_validation_witness :
    sampleMatch (gostr "[a") [] = .error (.other (gostr "syntax error in pattern")) ∧
    glob sampleMatch (gostr "[a") [] =
      (.error (.other (gostr "syntax error in pattern")), []) ∧
    sampleMatch (gostr "a") [] = .ok false ∧
    glob sampleMatch (gostr "a") [] = (.ok (initIter (gostr "a")), []) :=
  ⟨rfl,
   (glob_eager_validation sampleMatch (gostr "[a") []).1 _ rfl,
   rfl,
   ((glob_eager_validation sampleMatch (gostr "a") []).2 false rfl).1⟩

theorem respRead_nonpos {σ : Type} (read : σ → Nat → Nat × Option GoErr × σ)
    (cl : Int) (cap : Nat) (s : σ) (h : cl ≤ 0) :
    respRead read cl cap s = (0, some .eof, cl, s) := by
  unfold respRead
  rw [if_pos h]

theorem respRead_step {σ : Type} (read : σ → Nat → Nat × Option GoErr × σ)
    (h : ReaderContract read) (cl : Int) (cap : Nat) (s : σ) (hcl : 0 ≤ cl) :
    ((respRead read cl cap s).1 : Int) + (respRead read cl cap s).2.2.1 = cl ∧
    0 ≤ (respRead read cl cap s).2.2.1 := by
  by_cases hle : cl ≤ 0
  · rw [respRead_nonpos read cl cap s hle]
    exact ⟨by simp, by simpa using hcl⟩
  · simp only [respRead, if_neg hle]
    by_cases hc : (cap : Int) > cl
    · rw [if_pos hc]
      have hn := h s cl.toNat
      constructor <;> omega
    · rw [if_neg hc]
      have hn := h s cap
      constructor <;> omega

theorem runReads_nonpos {σ : Type} (read : σ → Nat → Nat × Option GoErr × σ)
    (caps : List Nat) : ∀ (cl : Int) (s : σ), cl ≤ 0 →
      runReads read caps cl s = (0, cl, s) := by
  induction caps with
  | nil => intro cl s _; rfl
  | cons c cs ih =>
    intro cl s h
    rw [runReads, respRead_nonpos read cl c s h]
    dsimp only
    rw [ih cl s h]
    simp

theorem runReads_le {σ : Type} (read : σ → Nat → Nat × Option GoErr × σ)
    (h : ReaderContract read) (caps : List Nat) :
    ∀ (cl : Int) (s : σ), ((runReads read caps cl s).1 : Int) ≤ max cl 0 := by
  have main : ∀ (cs : List Nat) (cl : Int) (s : σ), 0 ≤ cl →
      ((runReads read cs cl s).1 : Int) + (runReads read cs cl s).2.1 = cl ∧
      0 ≤ (runReads read cs cl s).2.1 := by
    intro cs
    induction cs with
    | nil =>
      intro cl s hcl
      exact ⟨by simp [runReads], by simpa [runReads] using hcl⟩
    | cons c cs' ih =>
      intro cl s hcl
      obtain ⟨h1, h2⟩ := respRead_step read h cl c s hcl
      rw [runReads]
      dsimp only
      obtain ⟨ih1, ih2⟩ :=
        ih (respRead read cl c s).2.2.1 (respRead read cl c s).2.2.2 h2
      constructor
      · push_cast
        omega
      · exact ih2
  intro cl s
  by_cases hcl : 0 ≤ cl
  · obtain ⟨h1, h2⟩ := main caps cl s hcl
    rw [max_eq_left hcl]
    omega
  · push_neg at hcl
    rw [runReads_nonpos read caps cl s (le_of_lt hcl)]
    simp

theorem respRead_exact_eof {σ : Type} (read : σ → Nat → Nat × Option GoErr × σ)
    (cl : Int) (cap : Nat) (s s' : σ) (hcl : 0 < cl)
    (hr : read s (if (cap : Int) > cl then cl.toNat else cap) =
      (cl.toNat, some .eof, s')) :
    respRead read cl cap s = (cl.toNat, none, 0, s') := by
  simp only [respRead, if_neg (by omega : ¬ cl ≤ 0)]
  rw [hr]
  dsimp only
  rw [if_pos ⟨rfl, by omega, by omega⟩]
  have h0 : cl - ((cl.toNat : Nat) : Int) = 0 := by omega
  rw [h0]

/-- C4: for every transport honouring the `io.Reader` contract, the sized
reader wrapped around it delivers at most the declared content length in
total over any sequence of `Read` calls, answers `(0, EOF)` without touching
the transport once the declared length is used up (or at once when it is not
positive), and reports a read that exactly exhausts the declared length
together with the transport's EOF as bytes with no error. -/
theorem respRead_bounded {σ : Type} (read : σ → Nat → Nat × Option GoErr × σ)
    (h : ReaderContract read) : RespReadSpec read :=
  ⟨fun caps cl s => runReads_le read h caps cl s,
   fun cap cl s hle => respRead_nonpos read cl cap s hle,
   fun cap cl s s' hcl hr => respRead_exact_eof read cl cap s s' hcl hr⟩

/-- C4 witness: the byte-list transport honours the reader contract and so
satisfies the sized-reader specification. -/
theorem respRead_bounded_witness : ReaderContract listRead ∧ RespReadSpec listRead := by
  have h : ReaderContract listRead := by
    intro s c
    simp only [listRead]
    split
    · simp_all
    · simp
  exact ⟨h, respRead_bounded listRead h⟩

/-- C6 counterexample: a backend not-found failure (HTTP 404 request
failure) arising in `Copy` is returned raw — `bucket.Copy` returns the
backend error without applying `normError`, so the caller does not see the
normalized `bfs.ErrNotFound`, even though `normError` would have produced
it. -/
theorem copy_error_not_normalized_cex :
    bucketCopyErr (some (.requestFailure 404 (gostr "NoSuchKey"))) =
      some (.requestFailure 404 (gostr "NoSuchKey")) ∧
    bucketCopyErr (some (.requestFailure 404 (gostr "NoSuchKey"))) ≠ some .notFound ∧
    normError (some (.requestFailure 404 (gostr "NoSuchKey"))) = some .notFound := by
  refine ⟨rfl, by decide, by decide⟩

/-- C6 (amended): the error-normalization mapping — HTTP 404 and no-such-key
failures to `NotFound`, cancellation failures to `Canceled`, everything else
passed through — is applied at the Head, Open, Remove and Commit boundaries,
but `Copy` returns the backend error unchanged, without normalization. -/
theorem error_normalization_boundaries :
    (∀ (e : GoErr) (name : GoStr), bucketHead name (.error e) = .error (normErrVal e)) ∧
    (∀ e : GoErr, bucketOpen (.error e) = .error (normErrVal e)) ∧
    (∀ e : Option GoErr, bucketRemoveErr e = normError e) ∧
    (∀ (fx : IOEffects) (u : Option GoErr),
      (writerCommit ⟨false⟩ fx none none u).1 = normError u) ∧
    (∀ e : Option GoErr, bucketCopyErr e = e) ∧
    (∀ code, normErrVal (.requestFailure 404 code) = .notFound) ∧
    (∀ st code, st ≠ 404 → normErrVal (.requestFailure st code) = .requestFailure st code) ∧
    normErrVal (.awsError (gostr "NoSuchKey")) = .notFound ∧
    normErrVal (.awsError (gostr "RequestCanceled")) = .canceled ∧
    (∀ code, code ≠ gostr "NoSuchKey" → code ≠ gostr "RequestCanceled" →
      normErrVal (.awsError code) = .awsError code) ∧
    (∀ msg, normErrVal (.other msg) = .other msg) ∧
    normErrVal .canceled = .canceled := by
  refine ⟨fun e name => rfl, fun e => rfl, fun e => rfl, fun fx u => rfl, fun e => rfl,
    fun code => by simp [normErrVal], ?_, by decide, by decide, ?_, fun msg => rfl, rfl⟩
  · intro st code hst
    simp [normErrVal, hst]
  · intro code h1 h2
    simp [normErrVal, h1, h2]

/-- C6 amended-claim witness: a non-404 request failure passes through
normalization unchanged. -/
theorem error_normalization_boundaries_witness :
    ((403 : Nat) ≠ 404) ∧
    normErrVal (.requestFailure 403 (gostr "Forbidden")) =
      .requestFailure 403 (gostr "Forbidden") :=
  ⟨by decide,
   error_normalization_boundaries.2.2.2.2.2.2.1 403 (gostr "Forbidden") (by decide)⟩

/-- C1 witness: the one-shot finalize statement at a concrete fresh writer
with zeroed effect counters and error-free calls. -/
theorem writer_finalize_once_witness :
    (writerCommit (writerCommit ⟨false⟩ ⟨0, 0⟩ none none none).2.1
        (writerCommit ⟨false⟩ ⟨0, 0⟩ none none none).2.2 none none none =
      (some .canceled, (writerCommit ⟨false⟩ ⟨0, 0⟩ none none none).2.1,
        (writerCommit ⟨false⟩ ⟨0, 0⟩ none none none).2.2)) ∧
    (writerCommit (writerDiscard ⟨false⟩ ⟨0, 0⟩ none).2.1
        (writerDiscard ⟨false⟩ ⟨0, 0⟩ none).2.2 none none none =
      (some .canceled, (writerDiscard ⟨false⟩ ⟨0, 0⟩ none).2.1,
        (writerDiscard ⟨false⟩ ⟨0, 0⟩ none).2.2)) ∧
    some GoErr.canceled ≠ (none : Option GoErr) :=
  writer_finalize_once ⟨0, 0⟩ none none none none none none

/-- C5 witness: the sticky-error statement at a concrete iterator with a
recorded error, an empty backend script and two further `Next` calls. -/
theorem iterator_error_sticky_witness :
    next sampleMatch [] { initIter [] with err := some (.other (gostr "boom")) } [] =
      (false, { initIter [] with err := some (.other (gostr "boom")) }, []) ∧
    nextN sampleMatch [] 2 { initIter [] with err := some (.other (gostr "boom")) } [] =
      ({ initIter [] with err := some (.other (gostr "boom")) }, []) ∧
    iterError { initIter [] with err := some (.other (gostr "boom")) } =
      some (.other (gostr "boom")) :=
  iterator_error_sticky sampleMatch [] (initIter []) [] (.other (gostr "boom")) 2

/-- C7 witness: the idempotent-remove statement at a concrete prefix, store
and name. -/
theorem remove_idempotent_witness :
    (bucketRemove (gostr "x/") [gostr "x/a"] (gostr "a")).2 = none ∧
    (bucketRemove (gostr "x/") (bucketRemove (gostr "x/") [gostr "x/a"] (gostr "a")).1
        (gostr "a")).2 = none ∧
    (∀ k ∈ (bucketRemove (gostr "x/") [gostr "x/a"] (gostr "a")).1,
      k ≠ withPfx (gostr "x/") (gostr "a")) ∧
    gsRemoveErr (some .objectNotExist) = none :=
  remove_idempotent (gostr "x/") [gostr "x/a"] (gostr "a")

/-- C9 witness: the close-idempotent statement at a concrete fresh iterator,
an empty backend script and two `Next` calls after `Close`. -/
theorem iterator_close_idempotent_witness :
    (closeIter (initIter [])).2 = none ∧
    closeIter (closeIter (initIter [])).1 = closeIter (initIter []) ∧
    (nextN sampleMatch [] 2 (closeIter (initIter [])).1 []).2 = [] ∧
    (next sampleMatch [] (nextN sampleMatch [] 2 (closeIter (initIter [])).1 []).1
        (nextN sampleMatch [] 2 (closeIter (initIter [])).1 []).2).1 = false :=
  iterator_close_idempotent sampleMatch [] (initIter []) [] 2

end Bfs
